import Mathlib

/-!
# Verification of `kirkifier_video.py`

A shallow embedding of the video face-replacement script
`src/kirkifier_video.py` together with proofs of its specified
properties.

The script is orchestration glue: it extracts frames/audio from a
video with an external media tool, replaces every detected face in
every frame with one randomly chosen reference face, reassembles the
video, and cleans up intermediates.  The external capabilities
(face detection, face swap, media tool) are opaque in the source, so
they are parameters of the embedding:

* images and faces are opaque values (`Img`, `Face`);
* `detect : Img → List Face` models `faceanalysis.get`;
* `swap : Img → Face → Face → Img` models `swapper.get` with
  `paste_back=True`;
* filenames are lists of character code points (`Name`), because the
  pipeline sorts them exactly as Python's `sorted` sorts `str`
  (lexicographically by code point);
* success/failure of the external tool invocations is a boolean
  environment (`Env`), and the effects of a run (subprocess calls,
  writes, prints, cleanup) are recorded as traces.
-/

namespace Kirkifier

/-- Image contents, opaque to the script. -/
abbrev Img := Nat

/-- A detected-face record (spatial region + embedding), opaque to the script. -/
abbrev Face := Nat

/-- A filename, modelled as its list of character code points.
Python compares `str` values lexicographically by code point, which is
the order `sorted(os.listdir(...))` uses on the frame filenames. -/
abbrev Name := List Nat

/-- Lexicographic comparison of code-point lists: `codeLe a b = true` iff
the string `a` compares `<=` to the string `b` in Python. -/
def codeLe : Name → Name → Bool
  | [], _ => true
  | _ :: _, [] => false
  | a :: as, b :: bs =>
    if a < b then true
    else if b < a then false
    else codeLe as bs

theorem codeLe_total (a b : Name) : codeLe a b = true ∨ codeLe b a = true := by
  induction a generalizing b with
  | nil => exact Or.inl rfl
  | cons x xs ih =>
    cases b with
    | nil => exact Or.inr rfl
    | cons y ys =>
      rcases Nat.lt_trichotomy x y with h | h | h
      · left; simp [codeLe, h]
      · subst h
        rcases ih ys with h' | h'
        · left; simp [codeLe, h']
        · right; simp [codeLe, h']
      · right; simp [codeLe, h]

theorem codeLe_trans {a b c : Name} (h1 : codeLe a b = true)
    (h2 : codeLe b c = true) : codeLe a c = true := by
  induction a generalizing b c with
  | nil => rfl
  | cons x xs ih =>
    cases b with
    | nil => simp [codeLe] at h1
    | cons y ys =>
      cases c with
      | nil => simp [codeLe] at h2
      | cons z zs =>
        simp only [codeLe] at h1 h2 ⊢
        split_ifs at h1 h2 ⊢ <;>
          first
          | rfl
          | omega
          | exact ih h1 h2

theorem codeLe_antisymm {a b : Name} (h1 : codeLe a b = true)
    (h2 : codeLe b a = true) : a = b := by
  induction a generalizing b with
  | nil =>
    cases b with
    | nil => rfl
    | cons y ys => simp [codeLe] at h2
  | cons x xs ih =>
    cases b with
    | nil => simp [codeLe] at h1
    | cons y ys =>
      simp only [codeLe] at h1 h2
      by_cases hxy : x < y
      · simp [Nat.lt_asymm hxy, hxy] at h2
      · simp only [hxy, if_false] at h1
        by_cases hyx : y < x
        · simp [codeLe, hyx] at h1
        · have : x = y := Nat.le_antisymm (Nat.le_of_not_lt hyx) (Nat.le_of_not_lt hxy)
          subst this
          simp only [if_neg hxy, if_neg hyx] at h1 h2
          rw [ih h1 h2]

/-- The `<=` order Python's `sorted` uses on the filenames, as a relation. -/
def nameLe (a b : Name) : Prop := codeLe a b = true

instance : DecidableRel nameLe :=
  fun a b => decidable_of_iff (codeLe a b = true) Iff.rfl

instance : IsTotal Name nameLe := ⟨codeLe_total⟩

instance : IsTrans Name nameLe := ⟨fun _ _ _ => codeLe_trans⟩

instance : IsAntisymm Name nameLe := ⟨fun _ _ => codeLe_antisymm⟩

/-- Python's `sorted` on a list of filenames: a sort by code-point order
(`sorted` is a stable comparison sort; on the distinct names appearing
here any correct comparison sort returns the same list). -/
def pySorted (l : List Name) : List Name := List.insertionSort nameLe l

/-- Code points of the suffix `".png"`. -/
def pngSuffix : Name := [46, 112, 110, 103]

/-- Code points of the prefix `"frame_"`. -/
def framePrefix : Name := [102, 114, 97, 109, 101, 95]

/-- The four zero-padded decimal digit code points of `%04d`
(48 is the code point of the digit 0). -/
def pad4 (i : Nat) : Name :=
  [48 + i / 1000 % 10, 48 + i / 100 % 10, 48 + i / 10 % 10, 48 + i % 10]

/-- ffmpeg's output filename `frame_%04d.png` for frame index `i`. -/
def frameName (i : Nat) : Name := framePrefix ++ pad4 i ++ pngSuffix

theorem codeLe_cons (x y : Nat) (xs ys : Name) :
    codeLe (x :: xs) (y :: ys) =
      if x < y then true else if y < x then false else codeLe xs ys := rfl

theorem codeLe_refl (a : Name) : codeLe a a = true := by
  induction a with
  | nil => rfl
  | cons x xs ih => simp [codeLe_cons, ih]

theorem codeLe_append_same (p : Name) (a b : Name) :
    codeLe (p ++ a) (p ++ b) = codeLe a b := by
  induction p with
  | nil => rfl
  | cons x xs ih => simp [codeLe_cons, ih]

theorem frameName_le {i j : Nat} (hij : i ≤ j) (hj : j ≤ 9999) :
    codeLe (frameName i) (frameName j) = true := by
  unfold frameName
  rw [List.append_assoc, List.append_assoc, codeLe_append_same]
  unfold pad4
  simp only [List.cons_append, List.nil_append]
  rw [codeLe_cons, codeLe_cons, codeLe_cons, codeLe_cons, codeLe_refl]
  split_ifs <;> first | rfl | omega

/-! ## Face Transform (`kirkify_frame`) and Frame Pipeline (`process_all_frames`)

Effects of the pipeline are recorded as a trace: the
`os.makedirs('processed_frames', exist_ok=True)` call, each
`swapper.get(res, face, kirk_face, paste_back=True)` invocation with its
arguments, and each `imwrite(output_path, img)` into the processed
directory. -/

/-- One observable effect of the frame pipeline. -/
inductive PEff where
  /-- `os.makedirs('processed_frames', exist_ok=True)` -/
  | mkdirProcessed : PEff
  /-- a call `swapper.get(src, face, ref, paste_back=True)` -/
  | swapCall (src : Img) (face : Face) (ref : Face) : PEff
  /-- `imwrite('processed_frames/' + name, img)` -/
  | write (name : Name) (img : Img) : PEff
deriving DecidableEq, Repr

/-- The uncaught Python exception raised by `faceanalysis.get(kirk)[0]`
when the detection list is empty. -/
inductive PyErr where
  | indexError : PyErr
deriving DecidableEq, Repr

/-- The loop `for face in faces: res = swapper.get(res, face, kirk_face,
paste_back=True)`: returns the final image together with the trace of
swap invocations, in order. -/
def swapAll (swap : Img → Face → Face → Img) (ref : Face) :
    Img → List Face → Img × List PEff
  | res, [] => (res, [])
  | res, f :: fs =>
    let next := swap res f ref
    let rest := swapAll swap ref next fs
    (rest.1, PEff.swapCall res f ref :: rest.2)

/-- `kirkify_frame(frame_path, output_path, faceanalysis, swapper, kirk_face)`.
`inImg` is the image obtained by `imread(frame_path)`; `detect` models
`faceanalysis.get` and `swap` models `swapper.get`.  If faces are
detected, each is swapped in turn into a copy of the input and the
result is written; otherwise the input image is written unchanged. -/
def kirkify_frame (detect : Img → List Face) (swap : Img → Face → Face → Img)
    (inImg : Img) (outName : Name) (kirk_face : Face) : List PEff :=
  let faces := detect inImg
  if faces.isEmpty then [PEff.write outName inImg]
  else
    let r := swapAll swap kirk_face inImg faces
    r.2 ++ [PEff.write outName r.1]

/-- `[f for f in sorted(os.listdir('unprocessed_frames')) if f.endswith('.png')]` -/
def frame_files (listing : List Name) : List Name :=
  (pySorted listing).filter (fun f => pngSuffix.isSuffixOf f)

/-- `process_all_frames(faceanalysis, swapper)`.
`listing` is `os.listdir('unprocessed_frames')` (arbitrary order),
`read n` is the image stored under `unprocessed_frames/n`,
`kirkPool i` is the image `kirks/kirk_i.jpg`, and `rand` is the result
of the single `randint(0, 2)` draw made at pipeline start.  Returns the
effect trace together with `some indexError` when
`faceanalysis.get(kirk)[0]` raises. -/
def process_all_frames (detect : Img → List Face) (swap : Img → Face → Face → Img)
    (kirkPool : Fin 3 → Img) (rand : Fin 3) (listing : List Name)
    (read : Name → Img) : List PEff × Option PyErr :=
  let files := frame_files listing
  let kirk := kirkPool rand
  match detect kirk with
  | [] => ([PEff.mkdirProcessed], some PyErr.indexError)
  | kirk_face :: _ =>
    (PEff.mkdirProcessed ::
      files.flatMap (fun n => kirkify_frame detect swap (read n) n kirk_face),
      none)

/-- The filenames written by a trace, in order. -/
def writesOf (t : List PEff) : List Name :=
  t.filterMap fun e => match e with | PEff.write n _ => some n | _ => none

/-- The `(name, image)` pairs written by a trace, in order. -/
def imagesWrittenOf (t : List PEff) : List (Name × Img) :=
  t.filterMap fun e => match e with | PEff.write n img => some (n, img) | _ => none

/-- The `(face, reference)` argument pairs of the swap calls of a trace,
in order. -/
def swapArgsOf (t : List PEff) : List (Face × Face) :=
  t.filterMap fun e => match e with | PEff.swapCall _ f r => some (f, r) | _ => none

theorem writesOf_append (a b : List PEff) :
    writesOf (a ++ b) = writesOf a ++ writesOf b := by
  simp [writesOf]

theorem imagesWrittenOf_append (a b : List PEff) :
    imagesWrittenOf (a ++ b) = imagesWrittenOf a ++ imagesWrittenOf b := by
  simp [imagesWrittenOf]

theorem swapArgsOf_append (a b : List PEff) :
    swapArgsOf (a ++ b) = swapArgsOf a ++ swapArgsOf b := by
  simp [swapArgsOf]

theorem swapAll_fst (swap : Img → Face → Face → Img) (ref : Face)
    (res : Img) (fs : List Face) :
    (swapAll swap ref res fs).1 = fs.foldl (fun r f => swap r f ref) res := by
  induction fs generalizing res with
  | nil => rfl
  | cons f fs ih => simp [swapAll, ih]

theorem swapAll_writes (swap : Img → Face → Face → Img) (ref : Face)
    (res : Img) (fs : List Face) :
    writesOf (swapAll swap ref res fs).2 = [] := by
  induction fs generalizing res with
  | nil => rfl
  | cons f fs ih => simp [swapAll, writesOf] at ih ⊢; exact ih _

theorem swapAll_imagesWritten (swap : Img → Face → Face → Img) (ref : Face)
    (res : Img) (fs : List Face) :
    imagesWrittenOf (swapAll swap ref res fs).2 = [] := by
  induction fs generalizing res with
  | nil => rfl
  | cons f fs ih => simp [swapAll, imagesWrittenOf] at ih ⊢; exact ih _

theorem swapAll_swapArgs (swap : Img → Face → Face → Img) (ref : Face)
    (res : Img) (fs : List Face) :
    swapArgsOf (swapAll swap ref res fs).2 = fs.map (fun f => (f, ref)) := by
  induction fs generalizing res with
  | nil => rfl
  | cons f fs ih => simp [swapAll, swapArgsOf] at ih ⊢; exact ih _

theorem writesOf_kirkify (detect : Img → List Face) (swap : Img → Face → Face → Img)
    (inImg : Img) (outName : Name) (kf : Face) :
    writesOf (kirkify_frame detect swap inImg outName kf) = [outName] := by
  simp only [kirkify_frame]
  by_cases h : (detect inImg).isEmpty
  · rw [if_pos h]; rfl
  · rw [if_neg h, writesOf_append, swapAll_writes]; rfl

theorem writesOf_cons_mkdir (t : List PEff) :
    writesOf (PEff.mkdirProcessed :: t) = writesOf t := rfl

theorem swapArgsOf_cons_mkdir (t : List PEff) :
    swapArgsOf (PEff.mkdirProcessed :: t) = swapArgsOf t := rfl

theorem swapArgsOf_flatMap (g : Name → List PEff) (l : List Name) :
    swapArgsOf (l.flatMap g) = l.flatMap (fun n => swapArgsOf (g n)) := by
  induction l with
  | nil => rfl
  | cons x xs ih => rw [List.flatMap_cons, swapArgsOf_append, ih, List.flatMap_cons]

theorem swapArgsOf_kirkify_ref (detect : Img → List Face)
    (swap : Img → Face → Face → Img) (inImg : Img) (outName : Name) (kf : Face) :
    ∀ p ∈ swapArgsOf (kirkify_frame detect swap inImg outName kf), p.2 = kf := by
  intro p hp
  simp only [kirkify_frame] at hp
  by_cases h : (detect inImg).isEmpty
  · rw [if_pos h] at hp
    simp [swapArgsOf] at hp
  · rw [if_neg h, swapArgsOf_append, swapAll_swapArgs] at hp
    simp only [swapArgsOf, List.filterMap_cons, List.filterMap_nil,
      List.append_nil, List.mem_map] at hp
    obtain ⟨f, _, rfl⟩ := hp
    rfl

theorem pngSuffix_isSuffixOf_frameName (i : Nat) :
    pngSuffix.isSuffixOf (frameName i) = true :=
  List.isSuffixOf_iff_suffix.mpr ⟨framePrefix ++ pad4 i, rfl⟩

theorem sorted_frameNames {N : Nat} (hN : N ≤ 9999) :
    List.Sorted nameLe ((List.range N).map (fun i => frameName (i + 1))) := by
  show List.Pairwise nameLe _
  refine List.pairwise_iff_getElem.mpr ?_
  intro i j hi hj hij
  simp only [List.length_map, List.length_range] at hi hj
  simp only [List.getElem_map, List.getElem_range]
  exact frameName_le (by omega) (by omega)

/-- On a directory whose listing is (a permutation of) the ffmpeg frame
sequence `frame_0001.png … frame_N.png` with `N ≤ 9999`,
`frame_files` returns exactly that sequence in ascending numeric
order: the lexicographic sort used by Python's `sorted` agrees with
numeric order on the zero-padded `%04d` filenames. -/
theorem frame_files_eq {N : Nat} {listing : List Name} (hN : N ≤ 9999)
    (hperm : listing.Perm ((List.range N).map (fun i => frameName (i + 1)))) :
    frame_files listing = (List.range N).map (fun i => frameName (i + 1)) := by
  have hsort : pySorted listing = (List.range N).map (fun i => frameName (i + 1)) :=
    List.eq_of_perm_of_sorted ((List.perm_insertionSort nameLe listing).trans hperm)
      (List.sorted_insertionSort nameLe listing) (sorted_frameNames hN)
  rw [frame_files, hsort]
  refine List.filter_eq_self.mpr ?_
  intro a ha
  obtain ⟨i, _, rfl⟩ := List.mem_map.mp ha
  exact pngSuffix_isSuffixOf_frameName _

/-- **C1.** For every input frame sequence of length `N` (the ffmpeg
frames `frame_0001.png … frame_%04d.png` of `N`, listed in arbitrary
directory order) in the unprocessed directory, `process_all_frames`
completes without error and writes exactly `N` output frames to the
processed directory, one under each input filename, processing and
writing them in ascending numeric order of the frame index. -/
theorem process_all_frames_outputs {N : Nat}
    (detect : Img → List Face) (swap : Img → Face → Face → Img)
    (kirkPool : Fin 3 → Img) (rand : Fin 3) (read : Name → Img)
    {listing : List Name} {kf : Face} {rest : List Face}
    (hN : N ≤ 9999)
    (hperm : listing.Perm ((List.range N).map (fun i => frameName (i + 1))))
    (hk : detect (kirkPool rand) = kf :: rest) :
    writesOf (process_all_frames detect swap kirkPool rand listing read).1
        = (List.range N).map (fun i => frameName (i + 1)) ∧
      (process_all_frames detect swap kirkPool rand listing read).2 = none := by
  have hw : ∀ l : List Name,
      writesOf (l.flatMap (fun n => kirkify_frame detect swap (read n) n kf)) = l := by
    intro l
    induction l with
    | nil => rfl
    | cons x xs ih =>
      rw [List.flatMap_cons, writesOf_append, writesOf_kirkify, ih]
      rfl
  constructor
  · simp only [process_all_frames, hk]
    rw [writesOf_cons_mkdir, frame_files_eq hN hperm, hw]
  · simp only [process_all_frames, hk]

/-- Witness for C1: two frames listed out of order are written back as
`frame_0001.png`, `frame_0002.png`, in that order, with no error. -/
theorem process_all_frames_outputs_witness :
    writesOf (process_all_frames (fun _ => [0]) (fun a _ _ => a) (fun _ => 0) 0
        [frameName 2, frameName 1] (fun _ => 3)).1
        = (List.range 2).map (fun i => frameName (i + 1)) ∧
      (process_all_frames (fun _ => [0]) (fun a _ _ => a) (fun _ => 0) 0
        [frameName 2, frameName 1] (fun _ => 3)).2 = none :=
  process_all_frames_outputs (N := 2) (fun _ => [0]) (fun a _ _ => a)
    (fun _ => 0) 0 (fun _ => 3) (by decide) (by decide) rfl

/-- **C2.** For a frame on which detection returns `k ≥ 1` faces,
`kirkify_frame` invokes the swap capability exactly `k` times, once per
detected face in detection order, every invocation against the same
reference face, and writes the sequentially composed result (each
detected face replaced in turn) once under the output name. -/
theorem kirkify_frame_swap_calls
    (detect : Img → List Face) (swap : Img → Face → Face → Img)
    (inImg : Img) (outName : Name) (kirk_face : Face)
    {faces : List Face} (hfaces : detect inImg = faces) (hne : faces ≠ []) :
    swapArgsOf (kirkify_frame detect swap inImg outName kirk_face)
        = faces.map (fun f => (f, kirk_face)) ∧
      imagesWrittenOf (kirkify_frame detect swap inImg outName kirk_face)
        = [(outName, faces.foldl (fun res f => swap res f kirk_face) inImg)] := by
  have hne' : faces.isEmpty = false := by
    cases faces
    · exact absurd rfl hne
    · rfl
  constructor
  · simp only [kirkify_frame, hfaces, hne', Bool.false_eq_true, if_false]
    rw [swapArgsOf_append, swapAll_swapArgs]
    simp [swapArgsOf]
  · simp only [kirkify_frame, hfaces, hne', Bool.false_eq_true, if_false]
    rw [imagesWrittenOf_append, swapAll_imagesWritten, swapAll_fst]
    rfl

/-- Witness for C2: two detected faces produce exactly two swap calls,
in detection order, both with reference face 9, and one write of the
folded result. -/
theorem kirkify_frame_swap_calls_witness :
    swapArgsOf (kirkify_frame (fun _ => [4, 5]) (fun a f r => a + f + r) 1
        (frameName 1) 9) = [(4, 9), (5, 9)] ∧
      imagesWrittenOf (kirkify_frame (fun _ => [4, 5]) (fun a f r => a + f + r) 1
        (frameName 1) 9) = [(frameName 1, 28)] :=
  kirkify_frame_swap_calls (fun _ => [4, 5]) (fun a f r => a + f + r) 1
    (frameName 1) 9 rfl (by decide)

/-- **C3.** For a frame on which detection returns zero faces,
`kirkify_frame` writes the input image unchanged under the output name
(a copy, identical to the input) and performs no swap call. -/
theorem kirkify_frame_zero_faces
    (detect : Img → List Face) (swap : Img → Face → Face → Img)
    (inImg : Img) (outName : Name) (kirk_face : Face)
    (h : detect inImg = []) :
    kirkify_frame detect swap inImg outName kirk_face
      = [PEff.write outName inImg] := by
  simp [kirkify_frame, h]

/-- Witness for C3: with no detected faces, frame image 7 is written
back unchanged. -/
theorem kirkify_frame_zero_faces_witness :
    kirkify_frame (fun _ => []) (fun a _ _ => a + 1) 7 (frameName 1) 5
      = [PEff.write (frameName 1) 7] :=
  kirkify_frame_zero_faces (fun _ => []) (fun a _ _ => a + 1) 7 (frameName 1) 5 rfl

/-- **C4.** In a conversion run, exactly one reference face is selected
at pipeline start: a single draw `rand` (`randint(0, 2)`, uniform over
the fixed pool `kirks/kirk_0.jpg … kirks/kirk_2.jpg`) made once before
the frame loop.  The face used is the head of the detections on
`kirkPool rand`, and every swap invocation of every frame in the run
uses that same face value — the selection is never re-randomized per
frame. -/
theorem process_all_frames_one_reference
    (detect : Img → List Face) (swap : Img → Face → Face → Img)
    (kirkPool : Fin 3 → Img) (rand : Fin 3) (listing : List Name) (read : Name → Img)
    {kf : Face} {rest : List Face}
    (hk : detect (kirkPool rand) = kf :: rest) :
    ∀ p ∈ swapArgsOf (process_all_frames detect swap kirkPool rand listing read).1,
      p.2 = kf := by
  simp only [process_all_frames, hk]
  intro p hp
  rw [swapArgsOf_cons_mkdir, swapArgsOf_flatMap] at hp
  obtain ⟨n, _, hpn⟩ := List.mem_flatMap.mp hp
  exact swapArgsOf_kirkify_ref detect swap (read n) n kf p hpn

/-- Witness for C4: reference face 7 is detected on the selected pool
image; the run's one swap call carries reference 7. -/
theorem process_all_frames_one_reference_witness :
    (7, 7) ∈ swapArgsOf (process_all_frames (fun _ => [7]) (fun a f r => a + f + r)
        (fun _ => 0) 1 [frameName 1] (fun _ => 2)).1 ∧
      ((7, 7) : Face × Face).2 = 7 :=
  ⟨by decide,
    process_all_frames_one_reference (fun _ => [7]) (fun a f r => a + f + r)
      (fun _ => 0) 1 [frameName 1] (fun _ => 2) rfl (7, 7) (by decide)⟩

/-- **C9.** If face detection on the randomly selected reference image
returns an empty face list, `process_all_frames` raises an uncaught
`IndexError` at `faceanalysis.get(kirk)[0]` before any frame is
transformed, though after the processed-frames directory is created:
the trace is exactly the directory creation, with no swap call and no
written frame.  Error-free behaviour thus requires every pool image to
contain at least one detectable face. -/
theorem process_all_frames_empty_pool_detection
    (detect : Img → List Face) (swap : Img → Face → Face → Img)
    (kirkPool : Fin 3 → Img) (rand : Fin 3) (listing : List Name) (read : Name → Img)
    (h : detect (kirkPool rand) = []) :
    process_all_frames detect swap kirkPool rand listing read
      = ([PEff.mkdirProcessed], some PyErr.indexError) := by
  simp only [process_all_frames, h]

/-- Witness for C9: a detector that finds no face in the pool image
makes the pipeline fail with `IndexError` right after creating the
output directory. -/
theorem process_all_frames_empty_pool_detection_witness :
    process_all_frames (fun _ => []) (fun a _ _ => a) (fun _ => 0) 0
        [frameName 1] (fun _ => 1)
      = ([PEff.mkdirProcessed], some PyErr.indexError) :=
  process_all_frames_empty_pool_detection (fun _ => []) (fun a _ _ => a)
    (fun _ => 0) 0 [frameName 1] (fun _ => 1) rfl

/-! ## Run Orchestrator (`main`, `cleanup`)

`main` parses `sys.argv`, handles the `init` mode, validates the
conversion arguments, and sequences model load → frame extraction →
audio extraction → frame processing → reassembly → cleanup.  External
outcomes (path existence, ffmpeg exit status, model errors) are an
environment; the run is modelled as the trace of observable steps, the
resulting transient filesystem state, and the process exit status.  An
uncaught Python exception (a `CalledProcessError` from a non-zero
ffmpeg exit, or a model error) terminates the process with status 1;
`exit()` in init mode and normal completion exit with status 0. -/

/-- The transient filesystem state the run manipulates: the two
intermediate frame directories, the extracted audio file `audio.aac`,
the output video, plus a stand-in for all unrelated paths (which the
script never touches). -/
structure FS where
  unprocessedDir : Bool
  processedDir : Bool
  audioFile : Bool
  outputFile : Bool
  otherFiles : Bool
deriving DecidableEq, Repr

/-- `cleanup(audio_path)`: `shutil.rmtree('unprocessed_frames', ignore_errors=True)`,
`shutil.rmtree('processed_frames', ignore_errors=True)`, and
`os.remove(audio_path)` when the file exists.  Nothing else is removed. -/
def cleanup (fs : FS) : FS :=
  { fs with unprocessedDir := false, processedDir := false, audioFile := false }

/-- Environment of one run: which paths exist, and whether each external
step succeeds (ffmpeg exiting zero, model inference not raising). -/
structure Env where
  pathExists : String → Bool
  extractFramesOk : Bool
  extractAudioOk : Bool
  processFramesOk : Bool
  reconstructOk : Bool

/-- One observable step of `main`. -/
inductive MainEff where
  | print (s : String)
  | initModels
  | ffmpegExtractFrames
  | ffmpegExtractAudio
  | processFrames
  | ffmpegReconstruct
  | cleanupCall
deriving DecidableEq, Repr

/-- The usage message printed on a wrong conversion argument count. -/
def usageMsg : String := "Usage: python script.py <input_video> <output_video>"

/-- The error message printed when the input path does not exist. -/
def pathErrMsg : String := "ERROR: target path not real"

/-- `main()` plus process exit.  `argv` is the full `sys.argv`
(element 0 is the script path).  Returns the trace of observable steps,
the final transient filesystem state, and the exit status. -/
def runMain (env : Env) (argv : List String) (fs : FS) :
    List MainEff × FS × Nat :=
  if argv[1]? = some "init" then
    ([MainEff.initModels, MainEff.print "initialized!!"], fs, 0)
  else if argv.length ≠ 3 then
    ([MainEff.print usageMsg], fs, 1)
  else
    let target := (argv[1]?).getD ""
    let output := (argv[2]?).getD ""
    if env.pathExists target = false then
      ([MainEff.print pathErrMsg], fs, 1)
    else
      let t1 := [MainEff.initModels, MainEff.print "Extracting frames..."]
      let fs1 := { fs with unprocessedDir := true }
      if env.extractFramesOk = false then
        (t1 ++ [MainEff.ffmpegExtractFrames], fs1, 1)
      else
        let t2 := t1 ++ [MainEff.ffmpegExtractFrames, MainEff.print "Extracting audio..."]
        if env.extractAudioOk = false then
          (t2 ++ [MainEff.ffmpegExtractAudio], fs1, 1)
        else
          let fs2 := { fs1 with audioFile := true }
          let t3 := t2 ++ [MainEff.ffmpegExtractAudio, MainEff.print "Processing frames..."]
          let fs3 := { fs2 with processedDir := true }
          if env.processFramesOk = false then
            (t3 ++ [MainEff.processFrames], fs3, 1)
          else
            let t4 := t3 ++ [MainEff.processFrames, MainEff.print "Reconstructing video..."]
            if env.reconstructOk = false then
              (t4 ++ [MainEff.ffmpegReconstruct], fs3, 1)
            else
              let fs4 := { fs3 with outputFile := true }
              let t5 := t4 ++ [MainEff.ffmpegReconstruct, MainEff.print "Cleaning up...",
                MainEff.cleanupCall]
              (t5 ++ [MainEff.print ("Done! Output saved to " ++ output)], cleanup fs4, 0)

/-- **C8.** Running in initialization mode (second `sys.argv` entry is
the token `init`) loads the detection/swap capability, performs no
filesystem write related to video processing (the filesystem state is
unchanged), prints the fixed confirmation string `initialized!!`, and
exits with status 0. -/
theorem runMain_init_mode (env : Env) (argv : List String) (fs : FS)
    (h : argv[1]? = some "init") :
    runMain env argv fs
      = ([MainEff.initModels, MainEff.print "initialized!!"], fs, 0) := by
  simp [runMain, h]

/-- Witness for C8: `python kirkifier_video.py init`. -/
theorem runMain_init_mode_witness :
    runMain ⟨fun _ => false, true, true, true, true⟩ ["kirkifier_video.py", "init"]
        ⟨false, false, false, false, false⟩
      = ([MainEff.initModels, MainEff.print "initialized!!"],
          ⟨false, false, false, false, false⟩, 0) :=
  runMain_init_mode ⟨fun _ => false, true, true, true, true⟩
    ["kirkifier_video.py", "init"] ⟨false, false, false, false, false⟩ rfl

/-- **C10.** Any invocation whose first command-line argument is the
token `init` takes initialization mode and exits with status 0 no
matter how many further arguments follow: the conversion-mode
argument-count check is never reached, so `init` plus two extra
arguments does not run a conversion and does not exit with status 1. -/
theorem runMain_init_ignores_extra_args (env : Env) (script : String)
    (rest : List String) (fs : FS) :
    runMain env (script :: "init" :: rest) fs
      = ([MainEff.initModels, MainEff.print "initialized!!"], fs, 0) := by
  simp [runMain]

/-- Counterexample to C5 as stated: the invocation
`kirkifier_video.py init a b` has an incorrect argument count
(4 entries in `sys.argv`, matching neither the single `init` token nor
the two conversion arguments), yet the program exits with status 0
rather than 1, because the `init` check precedes the argument-count
check. -/
theorem runMain_bad_argc_exit_zero :
    (["kirkifier_video.py", "init", "a", "b"] : List String).length ≠ 3 ∧
      (runMain ⟨fun _ => true, true, true, true, true⟩
          ["kirkifier_video.py", "init", "a", "b"]
          ⟨false, false, false, false, false⟩).2.2 = 0 := by
  exact ⟨by decide, rfl⟩

/-- **C5 (amended).** For every invocation that is not an init-mode
invocation (first argument not the token `init`): an incorrect argument
count, or a conversion invocation whose input path does not exist,
prints a usage or error message and exits with status 1 with no side
effects attempted — the filesystem is unchanged and the only observable
step is the printed message (no model load, no external tool call, no
intermediate directory or file creation). -/
theorem runMain_usage_errors (env : Env) (argv : List String) (fs : FS)
    (hinit : argv[1]? ≠ some "init")
    (h : argv.length ≠ 3 ∨ env.pathExists ((argv[1]?).getD "") = false) :
    (runMain env argv fs).2.1 = fs ∧ (runMain env argv fs).2.2 = 1 ∧
      ((runMain env argv fs).1 = [MainEff.print usageMsg] ∨
        (runMain env argv fs).1 = [MainEff.print pathErrMsg]) := by
  by_cases hlen : argv.length = 3
  · rcases h with hlen' | hpath
    · exact absurd hlen hlen'
    · simp only [runMain, if_neg hinit]
      rw [if_neg (fun h' => h' hlen), if_pos hpath]
      exact ⟨rfl, rfl, Or.inr rfl⟩
  · simp only [runMain, if_neg hinit]
    rw [if_pos hlen]
    exact ⟨rfl, rfl, Or.inl rfl⟩

/-- Witness for C5 (amended): running with no arguments at all prints
the usage message, exits 1 and touches nothing. -/
theorem runMain_usage_errors_witness :
    (runMain ⟨fun _ => true, true, true, true, true⟩ ["kirkifier_video.py"]
        ⟨false, false, false, false, true⟩).2.1 = ⟨false, false, false, false, true⟩ ∧
      (runMain ⟨fun _ => true, true, true, true, true⟩ ["kirkifier_video.py"]
        ⟨false, false, false, false, true⟩).2.2 = 1 ∧
      ((runMain ⟨fun _ => true, true, true, true, true⟩ ["kirkifier_video.py"]
          ⟨false, false, false, false, true⟩).1 = [MainEff.print usageMsg] ∨
        (runMain ⟨fun _ => true, true, true, true, true⟩ ["kirkifier_video.py"]
          ⟨false, false, false, false, true⟩).1 = [MainEff.print pathErrMsg]) :=
  runMain_usage_errors ⟨fun _ => true, true, true, true, true⟩ ["kirkifier_video.py"]
    ⟨false, false, false, false, true⟩ (by decide) (Or.inl (by decide))

/-- **C6.** In a conversion run, if any step fails (a ffmpeg invocation
exits non-zero, or frame processing raises), the run aborts with exit
status 1, cleanup never runs, nothing is retried (every external step
occurs at most once in the trace), and the partial intermediate state
created so far remains on disk — in every failure case at least the
unprocessed-frames directory is left behind. -/
theorem runMain_step_failure_aborts (env : Env) (argv : List String) (fs : FS)
    (hinit : argv[1]? ≠ some "init") (hlen : argv.length = 3)
    (hpath : env.pathExists ((argv[1]?).getD "") = true)
    (hfail : env.extractFramesOk = false ∨ env.extractAudioOk = false ∨
      env.processFramesOk = false ∨ env.reconstructOk = false) :
    (runMain env argv fs).2.2 = 1 ∧
      MainEff.cleanupCall ∉ (runMain env argv fs).1 ∧
      (runMain env argv fs).2.1.unprocessedDir = true ∧
      (runMain env argv fs).1.count MainEff.ffmpegExtractFrames ≤ 1 ∧
      (runMain env argv fs).1.count MainEff.ffmpegExtractAudio ≤ 1 ∧
      (runMain env argv fs).1.count MainEff.processFrames ≤ 1 ∧
      (runMain env argv fs).1.count MainEff.ffmpegReconstruct ≤ 1 := by
  simp only [runMain, if_neg hinit]
  rw [if_neg (fun h' => h' hlen), if_neg (by simp [hpath])]
  by_cases h1 : env.extractFramesOk = false
  · rw [if_pos h1]
    exact ⟨rfl, of_decide_eq_true rfl, rfl, of_decide_eq_true rfl,
      of_decide_eq_true rfl, of_decide_eq_true rfl, of_decide_eq_true rfl⟩
  · rw [if_neg h1]
    by_cases h2 : env.extractAudioOk = false
    · rw [if_pos h2]
      exact ⟨rfl, of_decide_eq_true rfl, rfl, of_decide_eq_true rfl,
      of_decide_eq_true rfl, of_decide_eq_true rfl, of_decide_eq_true rfl⟩
    · rw [if_neg h2]
      by_cases h3 : env.processFramesOk = false
      · rw [if_pos h3]
        exact ⟨rfl, of_decide_eq_true rfl, rfl, of_decide_eq_true rfl,
      of_decide_eq_true rfl, of_decide_eq_true rfl, of_decide_eq_true rfl⟩
      · rw [if_neg h3]
        by_cases h4 : env.reconstructOk = false
        · rw [if_pos h4]
          exact ⟨rfl, of_decide_eq_true rfl, rfl, of_decide_eq_true rfl,
      of_decide_eq_true rfl, of_decide_eq_true rfl, of_decide_eq_true rfl⟩
        · rcases hfail with h | h | h | h
          · exact absurd h h1
          · exact absurd h h2
          · exact absurd h h3
          · exact absurd h h4

/-- Witness for C6: the audio-extraction ffmpeg call fails; the run
exits 1, cleanup is skipped and `unprocessed_frames/` is left behind. -/
theorem runMain_step_failure_aborts_witness :
    (runMain ⟨fun _ => true, true, false, true, true⟩
        ["kirkifier_video.py", "in.mp4", "out.mp4"]
        ⟨false, false, false, false, true⟩).2.2 = 1 ∧
      MainEff.cleanupCall ∉ (runMain ⟨fun _ => true, true, false, true, true⟩
        ["kirkifier_video.py", "in.mp4", "out.mp4"]
        ⟨false, false, false, false, true⟩).1 ∧
      (runMain ⟨fun _ => true, true, false, true, true⟩
        ["kirkifier_video.py", "in.mp4", "out.mp4"]
        ⟨false, false, false, false, true⟩).2.1.unprocessedDir = true ∧
      (runMain ⟨fun _ => true, true, false, true, true⟩
        ["kirkifier_video.py", "in.mp4", "out.mp4"]
        ⟨false, false, false, false, true⟩).1.count MainEff.ffmpegExtractFrames ≤ 1 ∧
      (runMain ⟨fun _ => true, true, false, true, true⟩
        ["kirkifier_video.py", "in.mp4", "out.mp4"]
        ⟨false, false, false, false, true⟩).1.count MainEff.ffmpegExtractAudio ≤ 1 ∧
      (runMain ⟨fun _ => true, true, false, true, true⟩
        ["kirkifier_video.py", "in.mp4", "out.mp4"]
        ⟨false, false, false, false, true⟩).1.count MainEff.processFrames ≤ 1 ∧
      (runMain ⟨fun _ => true, true, false, true, true⟩
        ["kirkifier_video.py", "in.mp4", "out.mp4"]
        ⟨false, false, false, false, true⟩).1.count MainEff.ffmpegReconstruct ≤ 1 :=
  runMain_step_failure_aborts ⟨fun _ => true, true, false, true, true⟩
    ["kirkifier_video.py", "in.mp4", "out.mp4"] ⟨false, false, false, false, true⟩
    (by decide) (by decide) (by decide) (Or.inr (Or.inl rfl))

/-- **C7.** After a successful conversion run, cleanup has run and all
intermediate state — the unprocessed-frames directory, the
processed-frames directory and the extracted audio file — is absent,
and cleanup removed nothing else: the output video exists and all
unrelated files are untouched. -/
theorem runMain_success_cleanup (env : Env) (argv : List String) (fs : FS)
    (hinit : argv[1]? ≠ some "init") (hlen : argv.length = 3)
    (hpath : env.pathExists ((argv[1]?).getD "") = true)
    (hok : env.extractFramesOk = true ∧ env.extractAudioOk = true ∧
      env.processFramesOk = true ∧ env.reconstructOk = true) :
    (runMain env argv fs).2.2 = 0 ∧
      MainEff.cleanupCall ∈ (runMain env argv fs).1 ∧
      (runMain env argv fs).2.1 =
        { unprocessedDir := false, processedDir := false, audioFile := false,
          outputFile := true, otherFiles := fs.otherFiles } := by
  simp only [runMain, if_neg hinit]
  rw [if_neg (fun h' => h' hlen), if_neg (by simp [hpath]),
    if_neg (by simp [hok.1]), if_neg (by simp [hok.2.1]),
    if_neg (by simp [hok.2.2.1]), if_neg (by simp [hok.2.2.2])]
  refine ⟨rfl, by simp, rfl⟩

/-- Witness for C7: a successful conversion of `in.mp4` to `out.mp4`
leaves only the output video (and unrelated files) behind. -/
theorem runMain_success_cleanup_witness :
    (runMain ⟨fun _ => true, true, true, true, true⟩
        ["kirkifier_video.py", "in.mp4", "out.mp4"]
        ⟨false, false, false, false, true⟩).2.2 = 0 ∧
      MainEff.cleanupCall ∈ (runMain ⟨fun _ => true, true, true, true, true⟩
        ["kirkifier_video.py", "in.mp4", "out.mp4"]
        ⟨false, false, false, false, true⟩).1 ∧
      (runMain ⟨fun _ => true, true, true, true, true⟩
        ["kirkifier_video.py", "in.mp4", "out.mp4"]
        ⟨false, false, false, false, true⟩).2.1 =
        { unprocessedDir := false, processedDir := false, audioFile := false,
          outputFile := true, otherFiles := true } :=
  runMain_success_cleanup ⟨fun _ => true, true, true, true, true⟩
    ["kirkifier_video.py", "in.mp4", "out.mp4"] ⟨false, false, false, false, true⟩
    (by decide) (by decide) (by decide) ⟨rfl, rfl, rfl, rfl⟩

end Kirkifier
